import Mathlib

/-!
Shallow embedding of `src/darts/models/cp/conformal_model.py` (the conformal
calibration engine `ConformalModel`) and proofs about its behaviour.

Conventions used throughout:
* rational numbers stand for Python floats (all computations involved are
  exact arithmetic, so this is faithful);
* `Option ℚ` stands for a float that may be NaN (`none` = NaN), matching how
  `np.nanquantile` skips NaN entries and how residuals of not-yet-realized
  points are NaN-filled;
* the wrapped forecasting model (an external collaborator of the engine) is
  represented by abstract value/residual functions, with its interface
  contract modelled from the documented semantics where needed.
-/

namespace Darts

/-- Insertion of a rational into an already sorted list. -/
def insertSorted (x : ℚ) : List ℚ → List ℚ
  | [] => [x]
  | y :: ys => if x ≤ y then x :: y :: ys else y :: insertSorted x ys

/-- Insertion sort over rationals. -/
def sortQ (l : List ℚ) : List ℚ := l.foldr insertSorted []

/-- Empirical quantile with linear interpolation between order statistics of
an already-sorted sample, following numpy's default convention used by
`np.quantile` / `np.nanquantile`: the q-quantile of a sorted sample
`x_0 ≤ ... ≤ x_{m-1}` is `x_i + frac * (x_{i+1} - x_i)` where
`i = floor(q * (m - 1))` and `frac = q * (m - 1) - i`. Empty sample gives
`none` (NaN). -/
def quantileSorted (q : ℚ) (l : List ℚ) : Option ℚ :=
  match l with
  | [] => none
  | x :: xs =>
    let m : ℕ := (x :: xs).length
    let pos : ℚ := q * ((m : ℚ) - 1)
    let i : ℕ := pos.floor.toNat
    let frac : ℚ := pos - (i : ℚ)
    let xi := (x :: xs).getD i x
    let xi1 := (x :: xs).getD (i + 1) xi
    some (xi + frac * (xi1 - xi))

/-- `np.nanquantile` over a slice that may contain NaN entries: NaN entries
are dropped, the quantile is taken over the remaining values; an all-NaN
slice yields NaN. -/
def nanquantile (q : ℚ) (l : List (Option ℚ)) : Option ℚ :=
  quantileSorted q (sortQ (l.filterMap id))

/-- `np.quantile` over a slice that may contain NaN entries: any NaN entry
makes the result NaN (NaN propagates through plain `np.quantile`). -/
def npQuantile (q : ℚ) (l : List (Option ℚ)) : Option ℚ :=
  if l.all (fun v => v.isSome) then quantileSorted q (sortQ (l.filterMap id))
  else none

/-! ### Construction-time validation (`ConformalModel.__init__`, lines 74-124) -/

/-- The `alpha` argument of the constructor: a Python `float`, or a tuple of
two floats (lower/upper tail significance levels). -/
inductive CPAlpha where
  | float (a : ℚ)
  | pair (lo hi : ℚ)
deriving DecidableEq

/-- Mirrors `isinstance(alpha, float)`. -/
def CPAlpha.isFloat : CPAlpha → Bool
  | .float _ => true
  | .pair _ _ => false

/-- The aspects of the wrapped forecasting model inspected by the
constructor: `isinstance(model, GlobalForecastingModel)` and
`model._fit_called`. -/
structure WrappedModel where
  isGlobalForecastingModel : Bool
  fitCalled : Bool
deriving DecidableEq

/-- Embeds the validation performed by `ConformalModel.__init__`
(conformal_model.py lines 98-107): reject a model that is not a pre-trained
`GlobalForecastingModel`, and reject a non-float `alpha` when
`method == "naive"`; otherwise construction succeeds. -/
def conformalModelValidation (m : WrappedModel) (alpha : CPAlpha)
    (method : String) : Except String Unit :=
  if m.isGlobalForecastingModel = false ∨ m.fitCalled = false then
    .error "model must be a pre-trained GlobalForecastingModel."
  else if method = "naive" ∧ alpha.isFloat = false then
    .error "alpha must be a float when method is naive."
  else
    .ok ()

/-! ### Output component names (`ConformalModel._cp_component_names`, lines 598-603) -/

/-- Embeds `_cp_component_names`: per original component, in order,
the three names `{name}_q_lo`, `{name}_q_md`, `{name}_q_hi`. -/
def cpComponentNames (components : List String) : List String :=
  (components.map
    (fun tgt => [tgt ++ "_q_lo", tgt ++ "_q_md", tgt ++ "_q_hi"])).flatten

/-! ### `ConformalModel.predict` (lines 139-200) -/

/-- Inputs of one `predict` call for a single series, with the wrapped
model's contributions abstract: `predVals step comp` is the raw forecast
returned by `self.model.predict`, and `resVals step comp j` is the residual
tensor returned by `self.model.residuals(..., last_points_only=False)` after
`np.concatenate(res, axis=2)` (axis 2 indexes the `nCalFcs` historical
forecasts; `none` encodes NaN). -/
structure PredictCfg where
  horizon : ℕ
  width : ℕ
  predVals : ℕ → ℕ → ℚ
  nCalFcs : ℕ
  resVals : ℕ → ℕ → ℕ → Option ℚ
  alpha : ℚ
  method : String

/-- `q_hat = np.quantile(res, q=self.alpha, axis=2)` (line 186). -/
def predictQHat (cfg : PredictCfg) (h comp : ℕ) : Option ℚ :=
  npQuantile cfg.alpha ((List.range cfg.nCalFcs).map (fun j => cfg.resVals h comp j))

/-- The value at row `h` (horizon step) and column `col` of
`cp_pred = np.concatenate([pred_vals - q_hat, pred_vals, pred_vals + q_hat], axis=1)`
(lines 188-190): columns `0..width-1` hold the lower bounds of every
component, columns `width..2*width-1` the raw forecast, columns
`2*width..3*width-1` the upper bounds. -/
def predictCpVals (cfg : PredictCfg) (h col : ℕ) : Option ℚ :=
  if col < cfg.width then
    (predictQHat cfg h col).map (fun q => cfg.predVals h col - q)
  else if col < 2 * cfg.width then
    some (cfg.predVals h (col - cfg.width))
  else
    (predictQHat cfg h (col - 2 * cfg.width)).map
      (fun q => cfg.predVals h (col - 2 * cfg.width) + q)

/-- Control flow of `predict` (lines 139-200): the raw forecast and the
residuals are obtained first, then any `method` other than `"naive"` raises
`NotImplementedError` (lines 178-179) before any conformal output is
assembled. -/
def predictCall (cfg : PredictCfg) : Except String (ℕ → ℕ → Option ℚ) :=
  if cfg.method ≠ "naive" then .error "non-naive not yet implemented"
  else .ok (fun h col => predictCpVals cfg h col)

/-! ### `ConformalModel.historical_forecasts` (lines 255-502)

The wrapped model is called with `overlap_end=True`, so all of its
`nHfcs` forecasts have the full horizon length and consecutive origins.
We index forecasts by their position in `s_hfcs` (an integer, to mirror the
index arithmetic of the source exactly); forecast `k` predicts the
timestamps `t0 + k, ..., t0 + k + forecastHorizon - 1` where `t0` is the
time of the first predicted step of the first forecast.

Modelled from the spec (external `TimeSeries` / wrapped-model semantics,
not part of this engine): with `last_points_only=True` the wrapped model
returns one contiguous series whose value at position `k` is the last
predicted point of forecast `k` (`predVals k (forecastHorizon-1) ·`, at
time `t0 + k + forecastHorizon - 1`), and the residuals returned for the
two `last_points_only` modes agree on the underlying forecasts: the
residual of forecast `k` at horizon step `h` is `resVals k h ·` in both
(`none` encodes NaN, e.g. where the realized value does not exist). -/

/-- Inputs of one `historical_forecasts` call for a single target series. -/
structure HfcCfg where
  forecastHorizon : ℕ
  width : ℕ
  nHfcs : ℕ
  t0 : ℤ
  seriesEnd : ℤ
  predVals : ℤ → ℕ → ℕ → ℚ
  resVals : ℤ → ℕ → ℕ → Option ℚ
  alpha : ℚ
  trainLength : Option ℕ
  stride : ℕ
  overlapEnd : Bool
  startTime : Option ℤ
  showWarnings : Bool

/-- `delta_end = n_steps_between(end=last_hfc.end_time(), start=series_.end_time())`
(lines 345-350). With `last_points_only=True`, `last_hfc` is the whole
last-points series, whose end time is the last point of the last forecast;
with `last_points_only=False`, `last_hfc = s_hfcs[-1]`, with the same end
time. So the quantity is independent of `last_points_only`. -/
def HfcCfg.deltaEnd (c : HfcCfg) : ℤ :=
  (c.t0 + ((c.nHfcs : ℤ) - 1) + ((c.forecastHorizon : ℤ) - 1)) - c.seriesEnd

/-- `last_fc_idx` after the `overlap_end` adjustment (lines 343-352);
`last_fc_idx` starts at `len(s_hfcs)` and is only decremented when it is
nonzero and `overlap_end` is false. -/
def HfcCfg.lastFcIdx (c : HfcCfg) : ℤ :=
  if c.overlapEnd then (c.nHfcs : ℤ)
  else if c.nHfcs = 0 then 0
  else (c.nHfcs : ℤ) - c.deltaEnd

/-- `skip_n_train = forecast_horizon` plus `train_length - 1` when
`train_length` is set (lines 357-361). -/
def HfcCfg.skipNTrain (c : HfcCfg) : ℕ :=
  c.forecastHorizon + (match c.trainLength with
    | some tl => tl - 1
    | none => 0)

/-- Start time of `first_hfc = get_single_series(s_hfcs)` (line 341):
the first last-point for `last_points_only=True`, the first forecast's
first step otherwise. -/
def HfcCfg.firstHfcStart (c : HfcCfg) (lastPointsOnly : Bool) : ℤ :=
  if lastPointsOnly then c.t0 + ((c.forecastHorizon : ℤ) - 1) else c.t0

/-- `skip_n_start` before the out-of-bounds check (lines 365-378):
steps between the requested start and `first_hfc.start_time()`, plus
`forecast_horizon - 1` when `last_points_only` is set. -/
def HfcCfg.skipNStartRaw (c : HfcCfg) (lpo : Bool) (st : ℤ) : ℤ :=
  (st - c.firstHfcStart lpo) +
    (if lpo then (c.forecastHorizon : ℤ) - 1 else 0)

/-- The condition under which the requested `start` is ignored
(lines 381-385): negative, at or past `last_fc_idx`, or before
`skip_n_train`. -/
def HfcCfg.startOob (c : HfcCfg) (lpo : Bool) (st : ℤ) : Bool :=
  let s := c.skipNStartRaw lpo st
  decide (s < 0) || decide (c.lastFcIdx ≤ s) || decide (s < (c.skipNTrain : ℤ))

/-- `skip_n_start` after the out-of-bounds check (lines 363-386). -/
def HfcCfg.skipNStart (c : HfcCfg) (lpo : Bool) : ℤ :=
  match c.startTime with
  | none => 0
  | some st => if c.startOob lpo st then 0 else c.skipNStartRaw lpo st

/-- `first_fc_idx = max([skip_n_train, skip_n_start])` (line 406). -/
def HfcCfg.firstFcIdx (c : HfcCfg) (lpo : Bool) : ℤ :=
  max (c.skipNTrain : ℤ) (c.skipNStart lpo)

/-- Validity of a Python/numpy integer index into a sequence of length `n`
(negative indices count from the end). -/
def pythonIdxValid (n : ℕ) (i : ℤ) : Bool :=
  decide (-(n : ℤ) ≤ i) && decide (i < (n : ℤ))

/-- Whether the start-adjustment warning block (lines 387-403) is entered:
a start was given, it is out of bounds, and `show_warnings` is set. -/
def HfcCfg.warningPathTaken (c : HfcCfg) (lpo : Bool) : Bool :=
  c.showWarnings && (match c.startTime with
    | none => false
    | some st => c.startOob lpo st)

/-- The warning block reads `s_hfcs[skip_n_train].start_time()` and
`s_hfcs[last_fc_idx].start_time()` (lines 394-397); both element accesses
must be in bounds for the block to complete. -/
def HfcCfg.warningLookupsOk (c : HfcCfg) : Bool :=
  pythonIdxValid c.nHfcs (c.skipNTrain : ℤ) && pythonIdxValid c.nHfcs c.lastFcIdx

/-- The early `continue` guard (line 336): no historical forecasts were
generated, or `train_length > len(s_hfcs)`; in that case an empty forecast
list is appended for the series and no error is raised. -/
def HfcCfg.noHfcsShortcut (c : HfcCfg) : Bool :=
  decide (c.nHfcs = 0) || (match c.trainLength with
    | some tl => decide (c.nHfcs < tl)
    | none => false)

/-- The minimum-input check (lines 407-418): raise when
`first_fc_idx >= last_fc_idx`. -/
def HfcCfg.raisesMinInput (c : HfcCfg) (lpo : Bool) : Bool :=
  decide (c.lastFcIdx ≤ c.firstFcIdx lpo)

/-- Number of conformal forecasts emitted: the length of the Python slice
`[first_fc_idx:last_fc_idx:stride]`. -/
def HfcCfg.nEmitted (c : HfcCfg) (lpo : Bool) : ℕ :=
  ((c.lastFcIdx - c.firstFcIdx lpo + (c.stride : ℤ) - 1) / (c.stride : ℤ)).toNat

/-! #### `last_points_only=True` branch (lines 421-457) -/

/-- Origin (position in `s_hfcs`) of the forecast corrected at loop
iteration `idx`: `first_fc_idx + idx * stride`. -/
def HfcCfg.originT (c : HfcCfg) (idx : ℕ) : ℤ :=
  c.firstFcIdx true + (idx : ℤ) * (c.stride : ℤ)

/-- `cal_end = first_fc_idx + idx * stride - (forecast_horizon - 1)`
(line 433), exclusive. -/
def HfcCfg.calEndT (c : HfcCfg) (idx : ℕ) : ℤ :=
  c.firstFcIdx true + (idx : ℤ) * (c.stride : ℤ) - ((c.forecastHorizon : ℤ) - 1)

/-- `cal_start = cal_end - train_length if train_length is not None else None`
(lines 436-438); a `None` slice start means index 0. -/
def HfcCfg.calStartT (c : HfcCfg) (idx : ℕ) : ℤ :=
  match c.trainLength with
  | some tl => c.calEndT idx - (tl : ℤ)
  | none => 0

/-- Entry `j` of the calibration slice `res[cal_start:cal_end]` (line 439):
the last-point residual of forecast `cal_start + j`. -/
def HfcCfg.calEntryT (c : HfcCfg) (idx comp j : ℕ) : Option ℚ :=
  c.resVals (c.calStartT idx + (j : ℤ)) (c.forecastHorizon - 1) comp

/-- The calibration slice `cal_res = res[cal_start:cal_end]` for one
component (line 439). -/
def HfcCfg.calResT (c : HfcCfg) (idx comp : ℕ) : List (Option ℚ) :=
  (List.range (c.calEndT idx - c.calStartT idx).toNat).map (c.calEntryT idx comp)

/-- `q_hat = np.nanquantile(cal_res, q=self.alpha, axis=0)` (line 440). -/
def HfcCfg.qHatT (c : HfcCfg) (idx comp : ℕ) : Option ℚ :=
  nanquantile c.alpha (c.calResT idx comp)

/-- The raw (wrapped-model) value corrected at iteration `idx`: position
`first_fc_idx + idx * stride` of the last-points series, i.e. the last
predicted step of that forecast. -/
def HfcCfg.predT (c : HfcCfg) (idx comp : ℕ) : ℚ :=
  c.predVals (c.originT idx) (c.forecastHorizon - 1) comp

/-- Column `col` of the emitted row at iteration `idx` of the
`last_points_only=True` branch (lines 422-444): the first iteration with
`first_fc_idx == 0` repeats the point forecast three times (line 427),
otherwise the row is
`[pred_vals - q_hat, pred_vals, pred_vals + q_hat]` concatenated along the
component axis. -/
def HfcCfg.cpValT (c : HfcCfg) (idx col : ℕ) : Option ℚ :=
  if c.firstFcIdx true = 0 ∧ idx = 0 then
    some (c.predT idx (col % c.width))
  else if col < c.width then
    (c.qHatT idx col).map (fun q => c.predT idx col - q)
  else if col < 2 * c.width then
    some (c.predT idx (col - c.width))
  else
    (c.qHatT idx (col - 2 * c.width)).map
      (fun q => c.predT idx (col - 2 * c.width) + q)

/-- Timestamp of the emitted row at iteration `idx`:
`generate_index(start=s_hfcs._time_index[first_fc_idx], freq=freq*stride)`
(lines 449-453). -/
def HfcCfg.timeT (c : HfcCfg) (idx : ℕ) : ℤ :=
  (c.t0 + ((c.forecastHorizon : ℤ) - 1) + c.firstFcIdx true) +
    (idx : ℤ) * (c.stride : ℤ)

/-! #### `last_points_only=False` branch (lines 458-501) -/

/-- Origin of the forecast corrected at loop iteration `idx`. -/
def HfcCfg.originF (c : HfcCfg) (idx : ℕ) : ℤ :=
  c.firstFcIdx false + (idx : ℤ) * (c.stride : ℤ)

/-- `cal_end = first_fc_idx + idx * stride` (line 469), exclusive. -/
def HfcCfg.calEndF (c : HfcCfg) (idx : ℕ) : ℤ :=
  c.firstFcIdx false + (idx : ℤ) * (c.stride : ℤ)

/-- `cal_start = cal_end - train_length - (forecast_horizon - 1)` when
`train_length` is set, else the slice starts at 0 (lines 473-477). -/
def HfcCfg.calStartF (c : HfcCfg) (idx : ℕ) : ℤ :=
  match c.trainLength with
  | some tl => c.calEndF idx - (tl : ℤ) - ((c.forecastHorizon : ℤ) - 1)
  | none => 0

/-- Size of the concatenated calibration tensor along the
historical-forecast axis: `cal_res.shape[2]`. -/
def HfcCfg.mF (c : HfcCfg) (idx : ℕ) : ℕ :=
  (c.calEndF idx - c.calStartF idx).toNat

/-- Entry `(h, comp, j)` of `cal_res = np.concatenate(res[cal_start:cal_end], axis=2)`
after the two NaN maskings of lines 481-487. `_triul_indices` (lines 30-39)
produces, for the first masking, exactly the cells with
`h + j <= forecast_horizon - 2` (upper-left triangle, "same number of
residuals per horizon") and, for the second, exactly the cells with
`h + j >= cal_res.shape[2]` (lower-right triangle, look-ahead residuals). -/
def HfcCfg.maskedEntryF (c : HfcCfg) (idx h comp j : ℕ) : Option ℚ :=
  if (h : ℤ) + (j : ℤ) ≤ (c.forecastHorizon : ℤ) - 2 ∨
      (c.mF idx : ℤ) ≤ (h : ℤ) + (j : ℤ) then
    none
  else
    c.resVals (c.calStartF idx + (j : ℤ)) h comp

/-- Row `h` of the masked calibration tensor for one component, along the
historical-forecast axis. -/
def HfcCfg.maskedResF (c : HfcCfg) (idx h comp : ℕ) : List (Option ℚ) :=
  (List.range (c.mF idx)).map (c.maskedEntryF idx h comp)

/-- `q_hat = np.nanquantile(cal_res, q=self.alpha, axis=2)` (line 488). -/
def HfcCfg.qHatF (c : HfcCfg) (idx h comp : ℕ) : Option ℚ :=
  nanquantile c.alpha (c.maskedResF idx h comp)

/-- Value at horizon step `h`, column `col` of the forecast emitted at
iteration `idx` of the `last_points_only=False` branch (lines 459-491). -/
def HfcCfg.cpValF (c : HfcCfg) (idx h col : ℕ) : Option ℚ :=
  if c.firstFcIdx false = 0 ∧ idx = 0 then
    some (c.predVals (c.originF idx) h (col % c.width))
  else if col < c.width then
    (c.qHatF idx h col).map
      (fun q => c.predVals (c.originF idx) h col - q)
  else if col < 2 * c.width then
    some (c.predVals (c.originF idx) h (col - c.width))
  else
    (c.qHatF idx h (col - 2 * c.width)).map
      (fun q => c.predVals (c.originF idx) h (col - 2 * c.width) + q)

/-- Timestamp of horizon step `h` of the forecast emitted at iteration
`idx` (`pred._time_index`, line 496). -/
def HfcCfg.timeF (c : HfcCfg) (idx h : ℕ) : ℤ :=
  c.t0 + c.originF idx + (h : ℤ)

/-- Per-series outcome of one `historical_forecasts` call, following the
control flow of lines 330-502: the early `continue` (line 336) yields an
empty forecast list without error; an out-of-bounds element access inside
the start warning block aborts the call with `IndexError`; the
minimum-input check raises `ValueError` (lines 407-418); otherwise the
emitted forecasts are returned (represented by their count). -/
def HfcCfg.seriesOutcome (c : HfcCfg) (lpo : Bool) : Except String ℕ :=
  if c.noHfcsShortcut then .ok 0
  else if c.warningPathTaken lpo && !c.warningLookupsOk then
    .error "IndexError"
  else if c.raisesMinInput lpo then
    .error "Cannot build a single input for prediction with the provided model"
  else .ok (c.nEmitted lpo)

/-! ### Arguments of the internal calls to the wrapped model -/

/-- The arguments that `historical_forecasts` passes to the wrapped model's
own `historical_forecasts` (lines 284-299): `retrain=False`,
`overlap_end=True`, and the caller's `last_points_only`. -/
structure InnerHfcArgs where
  retrain : Bool
  overlapEnd : Bool
  lastPointsOnly : Bool
deriving DecidableEq

/-- Builds the inner `self.model.historical_forecasts(...)` arguments from
the caller-supplied `overlap_end` and `last_points_only`. -/
def innerHistoricalForecastsArgs (_callerOverlapEnd callerLastPointsOnly : Bool) :
    InnerHfcArgs :=
  { retrain := false, overlapEnd := true, lastPointsOnly := callerLastPointsOnly }

/-- The arguments that `historical_forecasts` passes to the wrapped model's
`residuals` (lines 313-322): `overlap_end=True` and the caller's
`last_points_only`. -/
structure InnerResidualsArgs where
  overlapEnd : Bool
  lastPointsOnly : Bool
deriving DecidableEq

/-- Builds the inner `self.model.residuals(...)` arguments from the
caller-supplied `last_points_only`. -/
def innerResidualsArgs (callerLastPointsOnly : Bool) : InnerResidualsArgs :=
  { overlapEnd := true, lastPointsOnly := callerLastPointsOnly }

/-! ### Concrete instances used in witnesses and counterexamples -/

/-- A `predict` call with `method="cqr"`. -/
def exC10 : PredictCfg :=
  { horizon := 2, width := 1, predVals := fun _ _ => 0, nCalFcs := 1,
    resVals := fun _ _ _ => some 1, alpha := 1/2, method := "cqr" }

/-- A small naive `predict` call: one component, one calibration forecast. -/
def exC2p : PredictCfg :=
  { horizon := 2, width := 1, predVals := fun h _ => (h : ℚ) + 5, nCalFcs := 1,
    resVals := fun _ _ _ => some 1, alpha := 1/2, method := "naive" }

/-- A naive `predict` call on a series with two components named
`a` (raw forecast 0) and `b` (raw forecast 10), with all residuals 1. -/
def exC4 : PredictCfg :=
  { horizon := 1, width := 2, predVals := fun _ k => if k = 0 then 0 else 10,
    nCalFcs := 1, resVals := fun _ _ _ => some 1, alpha := 0, method := "naive" }

/-- A `historical_forecasts` call: horizon 2, univariate, 6 wrapped
forecasts, `overlap_end=True`, no `train_length`, no `start`. -/
def exC2h : HfcCfg :=
  { forecastHorizon := 2, width := 1, nHfcs := 6, t0 := 0, seriesEnd := 5,
    predVals := fun k h _ => (k : ℚ) + h, resVals := fun _ _ _ => some 1,
    alpha := 1/2, trainLength := none, stride := 1, overlapEnd := true,
    startTime := none, showWarnings := false }

/-- A `historical_forecasts` call with `train_length=2`, horizon 2. -/
def exC1 : HfcCfg :=
  { forecastHorizon := 2, width := 1, nHfcs := 8, t0 := 0, seriesEnd := 7,
    predVals := fun k h _ => (k : ℚ) + h, resVals := fun k h _ => some ((k : ℚ) + 2 * h),
    alpha := 1, trainLength := some 2, stride := 1, overlapEnd := true,
    startTime := none, showWarnings := false }

/-- A `historical_forecasts` call: horizon 2, 6 wrapped forecasts, residuals
`k + 2h` at origin `k`, step `h`. -/
def exC5 : HfcCfg :=
  { forecastHorizon := 2, width := 1, nHfcs := 6, t0 := 0, seriesEnd := 5,
    predVals := fun k h _ => (k : ℚ) + h, resVals := fun k h _ => some ((k : ℚ) + 2 * h),
    alpha := 1/2, trainLength := none, stride := 1, overlapEnd := true,
    startTime := none, showWarnings := false }

/-- A `historical_forecasts` call with horizon 1, 2 wrapped forecasts, all
raw forecasts 0 and all residuals 1, `alpha=1`. -/
def exC6 : HfcCfg :=
  { forecastHorizon := 1, width := 1, nHfcs := 2, t0 := 0, seriesEnd := 1,
    predVals := fun _ _ _ => 0, resVals := fun _ _ _ => some 1, alpha := 1,
    trainLength := none, stride := 1, overlapEnd := true, startTime := none,
    showWarnings := false }

/-- A `historical_forecasts` call whose `train_length=8` exceeds the 6
historical forecasts produced by the wrapped model: the target/calibration
history is too short for even one calibration window. -/
def exC7 : HfcCfg :=
  { forecastHorizon := 2, width := 1, nHfcs := 6, t0 := 0, seriesEnd := 5,
    predVals := fun k h _ => (k : ℚ) + h, resVals := fun k h _ => some ((k : ℚ) + 2 * h),
    alpha := 1/2, trainLength := some 8, stride := 1, overlapEnd := true,
    startTime := none, showWarnings := false }

/-- A `historical_forecasts` call with `overlap_end=True`,
`show_warnings=True` and an explicit `start` at the very beginning of the
forecastable range, i.e. before the minimum eligible index. -/
def exC8 : HfcCfg :=
  { forecastHorizon := 2, width := 1, nHfcs := 5, t0 := 0, seriesEnd := 4,
    predVals := fun _ _ _ => 0, resVals := fun _ _ _ => some 1, alpha := 1,
    trainLength := none, stride := 1, overlapEnd := true, startTime := some 0,
    showWarnings := true }

/-! ## Helper lemmas -/

theorem cpComponentNames_cons (t : String) (cs : List String) :
    cpComponentNames (t :: cs) =
      (t ++ "_q_lo") :: (t ++ "_q_md") :: (t ++ "_q_hi") :: cpComponentNames cs := by
  simp [cpComponentNames]

theorem predictCpVals_lower (pc : PredictCfg) (h k : ℕ) (hk : k < pc.width) :
    predictCpVals pc h k = (predictQHat pc h k).map (fun q => pc.predVals h k - q) := by
  unfold predictCpVals
  rw [if_pos hk]

theorem predictCpVals_mid (pc : PredictCfg) (h k : ℕ) (hk : k < pc.width) :
    predictCpVals pc h (pc.width + k) = some (pc.predVals h k) := by
  unfold predictCpVals
  rw [if_neg (by omega), if_pos (by omega), Nat.add_sub_cancel_left]

theorem predictCpVals_upper (pc : PredictCfg) (h k : ℕ) (_hk : k < pc.width) :
    predictCpVals pc h (2 * pc.width + k) =
      (predictQHat pc h k).map (fun q => pc.predVals h k + q) := by
  unfold predictCpVals
  rw [if_neg (by omega), if_neg (by omega)]
  have : 2 * pc.width + k - 2 * pc.width = k := by omega
  rw [this]

theorem cpComponentNames_length (comps : List String) :
    (cpComponentNames comps).length = 3 * comps.length := by
  induction comps with
  | nil => rfl
  | cons t cs ih =>
    rw [cpComponentNames_cons]
    simp only [List.length_cons, ih]
    ring

theorem cpComponentNames_getD (comps : List String) (i : ℕ)
    (hi : i < comps.length) :
    (cpComponentNames comps).getD (3 * i) "" = comps.getD i "" ++ "_q_lo" ∧
    (cpComponentNames comps).getD (3 * i + 1) "" = comps.getD i "" ++ "_q_md" ∧
    (cpComponentNames comps).getD (3 * i + 2) "" = comps.getD i "" ++ "_q_hi" := by
  induction comps generalizing i with
  | nil => simp at hi
  | cons t cs ih =>
    cases i with
    | zero =>
      rw [cpComponentNames_cons]
      exact ⟨rfl, rfl, rfl⟩
    | succ j =>
      have hj : j < cs.length := by simpa using hi
      obtain ⟨a, b, cc⟩ := ih j hj
      rw [cpComponentNames_cons]
      have e0 : 3 * (j + 1) = 3 * j + 1 + 1 + 1 := by ring
      have e1 : 3 * (j + 1) + 1 = 3 * j + 1 + 1 + 1 + 1 := by ring
      have e2 : 3 * (j + 1) + 2 = 3 * j + 2 + 1 + 1 + 1 := by ring
      refine ⟨?_, ?_, ?_⟩
      · rw [e0]
        simp only [List.getD_cons_succ]
        exact a
      · rw [e1]
        simp only [List.getD_cons_succ]
        exact b
      · rw [e2]
        simp only [List.getD_cons_succ]
        exact cc

theorem quantileSorted_singleton (q x : ℚ) : quantileSorted q [x] = some x := by
  unfold quantileSorted
  simp

theorem cpValT_mid (c : HfcCfg) (idx k : ℕ) (hk : k < c.width) :
    c.cpValT idx (c.width + k) = some (c.predT idx k) := by
  unfold HfcCfg.cpValT
  by_cases hc : c.firstFcIdx true = 0 ∧ idx = 0
  · rw [if_pos hc, Nat.add_mod_left, Nat.mod_eq_of_lt hk]
  · rw [if_neg hc, if_neg (by omega), if_pos (by omega), Nat.add_sub_cancel_left]

theorem cpValF_mid (c : HfcCfg) (idx h k : ℕ) (hk : k < c.width) :
    c.cpValF idx h (c.width + k) = some (c.predVals (c.originF idx) h k) := by
  unfold HfcCfg.cpValF
  by_cases hc : c.firstFcIdx false = 0 ∧ idx = 0
  · rw [if_pos hc, Nat.add_mod_left, Nat.mod_eq_of_lt hk]
  · rw [if_neg hc, if_neg (by omega), if_pos (by omega), Nat.add_sub_cancel_left]

theorem skipNStartRaw_eq (c : HfcCfg) (st : ℤ) :
    c.skipNStartRaw true st = c.skipNStartRaw false st := by
  show (st - (c.t0 + ((c.forecastHorizon : ℤ) - 1))) + ((c.forecastHorizon : ℤ) - 1) =
    (st - c.t0) + 0
  ring

theorem startOob_eq (c : HfcCfg) (st : ℤ) :
    c.startOob true st = c.startOob false st := by
  unfold HfcCfg.startOob
  rw [skipNStartRaw_eq]

theorem skipNStart_eq (c : HfcCfg) : c.skipNStart true = c.skipNStart false := by
  unfold HfcCfg.skipNStart
  cases c.startTime with
  | none => rfl
  | some st =>
    show (if c.startOob true st then (0 : ℤ) else c.skipNStartRaw true st) =
      (if c.startOob false st then (0 : ℤ) else c.skipNStartRaw false st)
    rw [startOob_eq, skipNStartRaw_eq]

theorem firstFcIdx_eq (c : HfcCfg) : c.firstFcIdx true = c.firstFcIdx false := by
  unfold HfcCfg.firstFcIdx
  rw [skipNStart_eq]

theorem nEmitted_eq (c : HfcCfg) : c.nEmitted true = c.nEmitted false := by
  unfold HfcCfg.nEmitted
  rw [firstFcIdx_eq]

theorem skipNTrain_le_firstFcIdx (c : HfcCfg) (lpo : Bool) :
    (c.skipNTrain : ℤ) ≤ c.firstFcIdx lpo :=
  le_max_left _ _

theorem forecastHorizon_le_skipNTrain (c : HfcCfg) :
    c.forecastHorizon ≤ c.skipNTrain := by
  unfold HfcCfg.skipNTrain
  omega

theorem one_le_calEndT (c : HfcCfg) (idx : ℕ) : 1 ≤ c.calEndT idx := by
  have h1 := skipNTrain_le_firstFcIdx c true
  have h2 := forecastHorizon_le_skipNTrain c
  have h3 : 0 ≤ (idx : ℤ) * (c.stride : ℤ) := by positivity
  unfold HfcCfg.calEndT
  omega

theorem calStartT_none (c : HfcCfg) (idx : ℕ) (h : c.trainLength = none) :
    c.calStartT idx = 0 := by
  unfold HfcCfg.calStartT
  rw [h]

theorem calStartT_some (c : HfcCfg) (idx tl : ℕ) (h : c.trainLength = some tl) :
    c.calStartT idx = c.calEndT idx - (tl : ℤ) := by
  unfold HfcCfg.calStartT
  rw [h]

theorem calStartT_le_calEndT (c : HfcCfg) (idx : ℕ) :
    c.calStartT idx ≤ c.calEndT idx := by
  have h1 := one_le_calEndT c idx
  cases htl : c.trainLength with
  | none => rw [calStartT_none c idx htl]; omega
  | some tl => rw [calStartT_some c idx tl htl]; omega

theorem calStartF_eq_calStartT (c : HfcCfg) (idx : ℕ) :
    c.calStartF idx = c.calStartT idx := by
  unfold HfcCfg.calStartF HfcCfg.calStartT HfcCfg.calEndF HfcCfg.calEndT
  rw [firstFcIdx_eq]
  cases c.trainLength with
  | none => rfl
  | some tl => ring

theorem calEndF_eq (c : HfcCfg) (idx : ℕ) :
    c.calEndF idx = c.calEndT idx + ((c.forecastHorizon : ℤ) - 1) := by
  unfold HfcCfg.calEndF HfcCfg.calEndT
  rw [firstFcIdx_eq]
  ring

theorem mF_decomp (c : HfcCfg) (idx : ℕ) (hH : 1 ≤ c.forecastHorizon) :
    c.mF idx = (c.calEndT idx - c.calStartT idx).toNat + (c.forecastHorizon - 1) := by
  have h1 := one_le_calEndT c idx
  have h2 := calStartT_le_calEndT c idx
  unfold HfcCfg.mF
  rw [calStartF_eq_calStartT, calEndF_eq]
  omega

theorem filterMap_id_replicate_none (n : ℕ) :
    (List.replicate n (none : Option ℚ)).filterMap id = [] := by
  induction n with
  | zero => rfl
  | succ m ih => rw [List.replicate_succ, List.filterMap_cons]; exact ih

theorem maskedResF_decomp (c : HfcCfg) (idx comp : ℕ)
    (hH : 1 ≤ c.forecastHorizon) :
    c.maskedResF idx (c.forecastHorizon - 1) comp =
      c.calResT idx comp ++ List.replicate (c.forecastHorizon - 1) (none : Option ℚ) := by
  have h1 := one_le_calEndT c idx
  have h2 := calStartT_le_calEndT c idx
  have hm := mF_decomp c idx hH
  have hcast : ((c.forecastHorizon - 1 : ℕ) : ℤ) = (c.forecastHorizon : ℤ) - 1 := by
    omega
  unfold HfcCfg.maskedResF
  rw [hm, List.range_add, List.map_append, List.map_map]
  congr 1
  · unfold HfcCfg.calResT
    apply List.map_congr_left
    intro j hj
    have hjlt : j < (c.calEndT idx - c.calStartT idx).toNat := List.mem_range.mp hj
    unfold HfcCfg.maskedEntryF HfcCfg.calEntryT
    rw [if_neg, calStartF_eq_calStartT]
    rw [hm, hcast]
    push_cast
    omega
  · refine List.eq_replicate_iff.mpr ⟨by simp, ?_⟩
    intro b hb
    obtain ⟨t, ht, rfl⟩ := List.mem_map.mp hb
    have htlt : t < c.forecastHorizon - 1 := List.mem_range.mp ht
    show c.maskedEntryF idx (c.forecastHorizon - 1) comp
      ((c.calEndT idx - c.calStartT idx).toNat + t) = none
    unfold HfcCfg.maskedEntryF
    rw [if_pos]
    refine Or.inr ?_
    rw [hm, hcast]
    push_cast
    omega

theorem qHatF_last_eq_qHatT (c : HfcCfg) (idx comp : ℕ)
    (hH : 1 ≤ c.forecastHorizon) :
    c.qHatF idx (c.forecastHorizon - 1) comp = c.qHatT idx comp := by
  unfold HfcCfg.qHatF HfcCfg.qHatT nanquantile
  rw [maskedResF_decomp c idx comp hH, List.filterMap_append,
    filterMap_id_replicate_none, List.append_nil]

theorem originT_eq_originF (c : HfcCfg) (idx : ℕ) :
    c.originT idx = c.originF idx := by
  unfold HfcCfg.originT HfcCfg.originF
  rw [firstFcIdx_eq]

/-! ## Theorems about the claims -/

/-- C10: for every ConformalModel constructed with a method other than
"naive", every call to predict raises a not-implemented error after
obtaining the raw forecast and residuals, and returns no conformal output;
only method="naive" produces intervals. -/
theorem predict_non_naive_raises (cfg : PredictCfg) (hm : cfg.method ≠ "naive") :
    predictCall cfg = .error "non-naive not yet implemented" := by
  unfold predictCall
  rw [if_pos hm]

/-- Witness for `predict_non_naive_raises` at a concrete `method="cqr"`
configuration. -/
theorem predict_non_naive_raises_witness :
    predictCall exC10 = .error "non-naive not yet implemented" :=
  predict_non_naive_raises exC10 (by decide)

/-- C9: construction of a ConformalModel succeeds exactly when the wrapped
model is a pre-trained GlobalForecastingModel and, if the method is
"naive", alpha is a float; equivalently it fails if and only if the model
is not a pre-trained global forecasting model or method "naive" is given a
non-float alpha. -/
theorem construction_validation_iff (m : WrappedModel) (a : CPAlpha)
    (method : String) :
    conformalModelValidation m a method = .ok () ↔
      (m.isGlobalForecastingModel = true ∧ m.fitCalled = true ∧
        (method = "naive" → a.isFloat = true)) := by
  unfold conformalModelValidation
  by_cases h1 : m.isGlobalForecastingModel = false ∨ m.fitCalled = false
  · rw [if_pos h1]
    constructor
    · intro h; cases h
    · rintro ⟨hg, hf, -⟩
      rcases h1 with h1 | h1
      · rw [hg] at h1; cases h1
      · rw [hf] at h1; cases h1
  · rw [if_neg h1]
    by_cases h2 : method = "naive" ∧ a.isFloat = false
    · rw [if_pos h2]
      constructor
      · intro h; cases h
      · rintro ⟨-, -, hn⟩
        rw [hn h2.1] at h2
        cases h2.2
    · rw [if_neg h2]
      push_neg at h1 h2
      refine iff_of_true rfl ⟨?_, ?_, ?_⟩
      · cases hg : m.isGlobalForecastingModel
        · exact absurd hg h1.1
        · rfl
      · cases hf : m.fitCalled
        · exact absurd hf (h1.2)
        · rfl
      · intro hn
        cases ha : a.isFloat
        · exact absurd ha (h2 hn)
        · rfl

/-- C3 counterexample: the claim that the wrapped model's
historical_forecasts and residuals are always invoked internally with
`last_points_only=False` is false: with a caller-supplied
`last_points_only=True`, both inner calls receive `last_points_only=True`. -/
theorem inner_lpo_forwarded_counterexample :
    (innerHistoricalForecastsArgs false true).lastPointsOnly ≠ false ∧
      (innerResidualsArgs true).lastPointsOnly ≠ false := by
  exact ⟨by decide, by decide⟩

/-- C3 (amended): the wrapped model's historical_forecasts is always
invoked internally with `overlap_end=True` and `retrain=False`, and its
residuals with `overlap_end=True`, regardless of the caller's
`overlap_end`; the caller's `last_points_only` is forwarded unchanged to
both inner calls rather than being forced to False. -/
theorem inner_call_args_spec (oe lpo : Bool) :
    (innerHistoricalForecastsArgs oe lpo).overlapEnd = true ∧
      (innerHistoricalForecastsArgs oe lpo).retrain = false ∧
      (innerHistoricalForecastsArgs oe lpo).lastPointsOnly = lpo ∧
      (innerResidualsArgs lpo).overlapEnd = true ∧
      (innerResidualsArgs lpo).lastPointsOnly = lpo :=
  ⟨rfl, rfl, rfl, rfl, rfl⟩

/-- C7 counterexample: with `train_length=8` and only 6 historical
forecasts available — a history too short to form a single calibration
window — the call does not raise: it returns an empty forecast list for
the series (`continue` at line 336). -/
theorem too_short_returns_empty_counterexample :
    exC7.noHfcsShortcut = true ∧ exC7.seriesOutcome true = .ok 0 ∧
      exC7.seriesOutcome false = .ok 0 := by
  refine ⟨by decide, rfl, rfl⟩

/-- C7 (amended): when the early `continue` guard does not fire and the
warning path does not fault, a configuration in which no causally valid
calibration window can be formed for a requested point
(`first_fc_idx >= last_fc_idx`) raises the minimum-input error
synchronously; but when the wrapped model generated no historical
forecasts, or `train_length` exceeds their number, the call instead
returns an empty forecast list for that series without raising. -/
theorem min_input_raise_or_empty (c : HfcCfg) (lpo : Bool) :
    (c.noHfcsShortcut = true → c.seriesOutcome lpo = .ok 0) ∧
      (c.noHfcsShortcut = false →
        (c.warningPathTaken lpo && !c.warningLookupsOk) = false →
        c.raisesMinInput lpo = true →
        c.seriesOutcome lpo =
          .error "Cannot build a single input for prediction with the provided model") := by
  constructor
  · intro h
    unfold HfcCfg.seriesOutcome
    rw [h]
    rfl
  · intro h hw hr
    unfold HfcCfg.seriesOutcome
    rw [h, hw, hr]
    rfl

/-- Witness for `min_input_raise_or_empty`: a single wrapped forecast with
`train_length=8` exceeding it returns the empty output, and the same
configuration with `train_length=none` and horizon ≥ available forecasts
raises. -/
theorem min_input_raise_or_empty_witness :
    exC7.noHfcsShortcut = true ∧ exC7.seriesOutcome false = .ok 0 :=
  ⟨by decide, (min_input_raise_or_empty exC7 false).1 (by decide)⟩

/-- C4 counterexample: with two components `a` (raw forecast 0) and `b`
(raw forecast 10) and residuals 1, the output column at position 1 is named
`a_q_md`, but the value assembled there is 9 — the lower bound of
component `b` (`10 - q_hat`) — not component `a`'s raw median forecast 0:
the assembled values are in quantile-block order, not in the
component-major order of the names. -/
theorem component_order_mismatch_counterexample :
    (cpComponentNames ["a", "b"]).getD 1 "" = "a_q_md" ∧
      predictCpVals exC4 0 1 = some 9 ∧
      exC4.predVals 0 0 = 0 ∧
      predictCpVals exC4 0 1 ≠ some (exC4.predVals 0 0) := by
  have hq : predictQHat exC4 0 1 = some 1 := by
    have hres : (List.range exC4.nCalFcs).map (fun j => exC4.resVals 0 1 j) =
        [some 1] := rfl
    unfold predictQHat
    rw [hres]
    unfold npQuantile
    rw [if_pos (by decide)]
    show quantileSorted exC4.alpha [1] = some 1
    exact quantileSorted_singleton _ _
  have h9 : predictCpVals exC4 0 1 = some 9 := by
    unfold predictCpVals
    rw [if_pos (by decide), hq]
    show some (exC4.predVals 0 1 - 1) = some 9
    show some ((10 : ℚ) - 1) = some 9
    norm_num
  refine ⟨rfl, h9, rfl, ?_⟩
  rw [h9]
  intro hcontra
  have h90 : (9 : ℚ) = exC4.predVals 0 0 := Option.some.inj hcontra
  have : (9 : ℚ) = 0 := h90
  norm_num at this

/-- C4 (amended): for an input series with `c` components and one quantile
interval, the output has exactly `c * 3` components; the component names
are ordered per original component from lowest to highest quantile
(`comp1_q_lo, comp1_q_md, comp1_q_hi, comp2_q_lo, ...`), but the values
assembled in the output array are in quantile-block order (lower bounds of
all components, then all raw medians, then all upper bounds), so name
order and value order agree only for univariate input. -/
theorem output_component_layout (comps : List String) (i : ℕ)
    (hi : i < comps.length) :
    (cpComponentNames comps).length = 3 * comps.length ∧
      (cpComponentNames comps).getD (3 * i) "" = comps.getD i "" ++ "_q_lo" ∧
      (cpComponentNames comps).getD (3 * i + 1) "" = comps.getD i "" ++ "_q_md" ∧
      (cpComponentNames comps).getD (3 * i + 2) "" = comps.getD i "" ++ "_q_hi" ∧
      (∀ (pc : PredictCfg) (h k : ℕ), k < pc.width →
        predictCpVals pc h k =
          (predictQHat pc h k).map (fun q => pc.predVals h k - q) ∧
        predictCpVals pc h (pc.width + k) = some (pc.predVals h k) ∧
        predictCpVals pc h (2 * pc.width + k) =
          (predictQHat pc h k).map (fun q => pc.predVals h k + q)) := by
  obtain ⟨a, b, cc⟩ := cpComponentNames_getD comps i hi
  refine ⟨cpComponentNames_length comps, a, b, cc, ?_⟩
  intro pc h k hk
  exact ⟨predictCpVals_lower pc h k hk, predictCpVals_mid pc h k hk,
    predictCpVals_upper pc h k hk⟩

/-- Witness for `output_component_layout` at a two-component series. -/
theorem output_component_layout_witness :
    (cpComponentNames ["a", "b"]).length = 3 * 2 ∧
      (cpComponentNames ["a", "b"]).getD (3 * 1) "" = ["a", "b"].getD 1 "" ++ "_q_lo" ∧
      predictCpVals exC4 0 (exC4.width + 0) = some (exC4.predVals 0 0) := by
  obtain ⟨l, g1, -, -, hv⟩ := output_component_layout ["a", "b"] 1 (by decide)
  exact ⟨l, g1, (hv exC4 0 0 (by decide)).2.1⟩

/-- C2: for every forecast for which a calibration window of size at least
1 exists, the median block of the conformal output equals, value for
value, the wrapped model's own raw forecast — in predict and in both
branches of historical_forecasts; the conformal correction changes only
the lower- and upper-bound blocks. -/
theorem median_block_equals_raw :
    (∀ (pc : PredictCfg) (h k : ℕ), k < pc.width → 1 ≤ pc.nCalFcs →
      predictCpVals pc h (pc.width + k) = some (pc.predVals h k)) ∧
    (∀ (c : HfcCfg) (idx k : ℕ), k < c.width → 1 ≤ (c.calResT idx k).length →
      c.cpValT idx (c.width + k) = some (c.predT idx k)) ∧
    (∀ (c : HfcCfg) (idx h k : ℕ), k < c.width → 1 ≤ c.mF idx →
      c.cpValF idx h (c.width + k) = some (c.predVals (c.originF idx) h k)) := by
  refine ⟨?_, ?_, ?_⟩
  · intro pc h k hk _
    exact predictCpVals_mid pc h k hk
  · intro c idx k hk _
    exact cpValT_mid c idx k hk
  · intro c idx h k hk _
    exact cpValF_mid c idx h k hk

/-- Witness for `median_block_equals_raw` at concrete predict and
historical-forecast configurations. -/
theorem median_block_equals_raw_witness :
    predictCpVals exC2p 0 (exC2p.width + 0) = some (exC2p.predVals 0 0) ∧
      exC2h.cpValT 0 (exC2h.width + 0) = some (exC2h.predT 0 0) ∧
      exC2h.cpValF 0 1 (exC2h.width + 0) =
        some (exC2h.predVals (exC2h.originF 0) 1 0) := by
  obtain ⟨p1, p2, p3⟩ := median_block_equals_raw
  exact ⟨p1 exC2p 0 0 (by decide) (by decide),
    p2 exC2h 0 0 (by decide) (by decide),
    p3 exC2h 0 1 0 (by decide) (by decide)⟩

/-- C1: calibration windows never look ahead. First conjunct: with
`last_points_only=True` the window passed to the quantile computation ends
(exclusively) at index `first_fc_idx + idx * stride - (forecast_horizon - 1)`.
Second conjunct: every residual in that window comes from a forecast whose
realized value (origin `k`, realized at `k + forecast_horizon - 1`) lies
strictly before the corrected forecast (origin `originT idx`, realized at
`originT idx + forecast_horizon - 1`). Third conjunct: with
`last_points_only=False`, any residual whose realized value lies at or
after the origin of the forecasted point is replaced by NaN by the
triangular masking before the quantile is taken. -/
theorem calibration_window_no_lookahead (c : HfcCfg)
    (_hH : 1 ≤ c.forecastHorizon) (idx comp : ℕ) :
    (c.calEndT idx = c.firstFcIdx true + (idx : ℤ) * (c.stride : ℤ) -
        ((c.forecastHorizon : ℤ) - 1)) ∧
      (∀ x ∈ c.calResT idx comp, ∃ k : ℤ,
        c.calStartT idx ≤ k ∧ k < c.calEndT idx ∧
        x = c.resVals k (c.forecastHorizon - 1) comp ∧
        k + ((c.forecastHorizon : ℤ) - 1) < c.originT idx) ∧
      (∀ h j : ℕ, h < c.forecastHorizon → j < c.mF idx →
        c.originF idx ≤ c.calStartF idx + (j : ℤ) + (h : ℤ) →
        c.maskedEntryF idx h comp j = none) := by
  refine ⟨rfl, ?_, ?_⟩
  · intro x hx
    obtain ⟨j, hj, rfl⟩ := List.mem_map.mp hx
    have hjr : j < (c.calEndT idx - c.calStartT idx).toNat := List.mem_range.mp hj
    have hoe : c.calEndT idx = c.originT idx - ((c.forecastHorizon : ℤ) - 1) := by
      unfold HfcCfg.calEndT HfcCfg.originT
      ring
    exact ⟨c.calStartT idx + (j : ℤ), by omega, by omega, rfl, by omega⟩
  · intro h j hh hj hge
    have h0 : c.originF idx = c.calEndF idx := rfl
    rw [h0] at hge
    have hle : (c.mF idx : ℤ) ≤ (h : ℤ) + (j : ℤ) := by
      unfold HfcCfg.mF
      omega
    unfold HfcCfg.maskedEntryF
    rw [if_pos (Or.inr hle)]

/-- Witness for `calibration_window_no_lookahead`: at a concrete
configuration (horizon 2, `train_length=2`), the masked entry at horizon
step 1, window position 2 of iteration 1 — whose realized value coincides
with the forecast origin — is NaN. -/
theorem calibration_window_no_lookahead_witness :
    1 ≤ exC1.forecastHorizon ∧ exC1.maskedEntryF 1 1 0 2 = none :=
  ⟨by decide, (calibration_window_no_lookahead exC1 (by decide) 1 0).2.2
    1 2 (by decide) (by decide) (by decide)⟩

/-- C5: for a fixed configuration, the `last_points_only=True` output
equals, pointwise at every timestamp and every output column, the last
predicted step of each forecast of the `last_points_only=False` output:
same number of emitted forecasts, same timestamps, same values. -/
theorem last_points_only_refines (c : HfcCfg) (hH : 1 ≤ c.forecastHorizon)
    (idx col : ℕ) (_hidx : idx < c.nEmitted true) (_hcol : col < 3 * c.width) :
    c.nEmitted true = c.nEmitted false ∧
      c.timeT idx = c.timeF idx (c.forecastHorizon - 1) ∧
      c.cpValT idx col = c.cpValF idx (c.forecastHorizon - 1) col := by
  have hcast : ((c.forecastHorizon - 1 : ℕ) : ℤ) = (c.forecastHorizon : ℤ) - 1 := by
    omega
  refine ⟨nEmitted_eq c, ?_, ?_⟩
  · unfold HfcCfg.timeT HfcCfg.timeF HfcCfg.originF
    rw [← firstFcIdx_eq, hcast]
    ring
  · have hor := originT_eq_originF c idx
    have hff := firstFcIdx_eq c
    unfold HfcCfg.cpValT HfcCfg.cpValF HfcCfg.predT
    by_cases hc : c.firstFcIdx false = 0 ∧ idx = 0
    · rw [if_pos (by rw [hff]; exact hc), if_pos hc, hor]
    · rw [if_neg (by rw [hff]; exact hc), if_neg hc]
      by_cases h1 : col < c.width
      · rw [if_pos h1, if_pos h1, qHatF_last_eq_qHatT c idx col hH, hor]
      · by_cases h2 : col < 2 * c.width
        · rw [if_neg h1, if_neg h1, if_pos h2, if_pos h2, hor]
        · rw [if_neg h1, if_neg h1, if_neg h2, if_neg h2,
            qHatF_last_eq_qHatT c idx (col - 2 * c.width) hH, hor]

/-- Witness for `last_points_only_refines` at a concrete configuration
(horizon 2, six wrapped forecasts), first emitted forecast, first column. -/
theorem last_points_only_refines_witness :
    exC5.nEmitted true = exC5.nEmitted false ∧
      exC5.timeT 0 = exC5.timeF 0 (exC5.forecastHorizon - 1) ∧
      exC5.cpValT 0 0 = exC5.cpValF 0 (exC5.forecastHorizon - 1) 0 :=
  last_points_only_refines exC5 (by decide) 0 0 (by decide) (by decide)

/-- C6 counterexample: a run of `historical_forecasts`
(`last_points_only=True`, horizon 1, two wrapped forecasts, all residuals
1, `alpha=1`) in which every emitted forecast — including the very first
eligible one — has its lower column different from its median column: no
emitted forecast collapses to the point forecast repeated three times. The
collapse branch would require `first_fc_idx == 0`, which cannot happen
since `first_fc_idx >= forecast_horizon >= 1`. -/
theorem no_collapsed_forecast_counterexample :
    exC6.nEmitted true = 1 ∧
      exC6.cpValT 0 1 = some 0 ∧
      exC6.cpValT 0 0 = some (-1) ∧
      exC6.cpValT 0 0 ≠ exC6.cpValT 0 1 := by
  have hq : exC6.qHatT 0 0 = some 1 := by
    unfold HfcCfg.qHatT
    rw [show exC6.calResT 0 0 = [some 1] from rfl]
    show quantileSorted exC6.alpha [1] = some 1
    exact quantileSorted_singleton _ _
  have hv0 : exC6.cpValT 0 0 = some (0 - 1) := by
    unfold HfcCfg.cpValT
    rw [if_neg (by decide), if_pos (by decide), hq]
    rfl
  have hv1 : exC6.cpValT 0 1 = some 0 := by
    unfold HfcCfg.cpValT
    rw [if_neg (by decide), if_neg (by decide), if_pos (by decide)]
    rfl
  refine ⟨by decide, hv1, ?_, ?_⟩
  · rw [hv0]
    congr 1
    norm_num
  · rw [hv0, hv1]
    intro hcontra
    have h01 : (0 : ℚ) - 1 = 0 := Option.some.inj hcontra
    norm_num at h01

/-- C6 (amended): the collapse-to-point-forecast branch
(`not first_fc_idx and not idx`, lines 426-427 and 462-463) is
unreachable: since `first_fc_idx >= skip_n_train >= forecast_horizon >= 1`,
no emitted forecast collapses to a zero-width band, and every emitted
forecast is corrected with a calibration window of length at least 1 in
both `last_points_only` branches. -/
theorem collapse_branch_unreachable (c : HfcCfg) (lpo : Bool) (idx comp : ℕ)
    (hH : 1 ≤ c.forecastHorizon) (htl : ∀ tl ∈ c.trainLength, 1 ≤ tl) :
    1 ≤ c.firstFcIdx lpo ∧
      ¬(c.firstFcIdx lpo = 0 ∧ idx = 0) ∧
      1 ≤ (c.calResT idx comp).length ∧
      1 ≤ c.mF idx := by
  have h1 := skipNTrain_le_firstFcIdx c lpo
  have h2 := forecastHorizon_le_skipNTrain c
  have h3 := one_le_calEndT c idx
  have hfirst : 1 ≤ c.firstFcIdx lpo := by omega
  have hlen : 1 ≤ (c.calResT idx comp).length := by
    unfold HfcCfg.calResT
    rw [List.length_map, List.length_range]
    cases htl2 : c.trainLength with
    | none =>
      rw [calStartT_none c idx htl2]
      omega
    | some tl =>
      have hge1 := htl tl (by rw [htl2]; rfl)
      rw [calStartT_some c idx tl htl2]
      omega
  refine ⟨hfirst, by omega, hlen, ?_⟩
  rw [mF_decomp c idx hH]
  unfold HfcCfg.calResT at hlen
  rw [List.length_map, List.length_range] at hlen
  omega

/-- Witness for `collapse_branch_unreachable` at a concrete
configuration. -/
theorem collapse_branch_unreachable_witness :
    1 ≤ exC2h.firstFcIdx true ∧ 1 ≤ (exC2h.calResT 0 0).length := by
  obtain ⟨a, -, b, -⟩ := collapse_branch_unreachable exC2h true 0 0 (by decide)
    (fun tl h => absurd h (Option.not_mem_none tl))
  exact ⟨a, b⟩

/-- C8: evaluation of the code at the failing input. With
`overlap_end=True`, `show_warnings=True` and a start before the minimum
eligible index, the start-adjustment warning block evaluates
`s_hfcs[last_fc_idx]` with `last_fc_idx == len(s_hfcs)`, an out-of-bounds
element access: the call aborts with IndexError instead of warning and
proceeding. -/
theorem start_warning_index_out_of_bounds :
    exC8.startOob false 0 = true ∧
      exC8.warningPathTaken false = true ∧
      exC8.lastFcIdx = (exC8.nHfcs : ℤ) ∧
      exC8.warningLookupsOk = false ∧
      exC8.seriesOutcome false = .error "IndexError" := by
  refine ⟨by decide, by decide, by decide, by decide, rfl⟩

end Darts
